import Mathlib

set_option maxRecDepth 8000

/-!
Verification of the polymarket data-ingestion pipeline against its
natural-language specification.

The development shallowly embeds the three core scripts:
  * `WS`      — scripts/websocket_collector.py (stream collector)
  * `Extract` — scripts/extract_trades.py      (bulk backfill extractor)
  * `Poller`  — scripts/orderbook_poller.py    (snapshot poller)

Prices and sizes are modelled as rationals (the Python code uses floats;
rounding is abstracted away), timestamps as integers, database tables as
lists of row structures, and the PostgreSQL uniqueness behaviour exactly as
declared by the DDL in the source (the streaming tables have only a serial
primary key and NON-unique indexes; the backfill `trades` table insert uses
ON CONFLICT (id) DO NOTHING).
-/

/-- One price level of an order book: {price, size}. -/
structure Level where
  price : ℚ
  size : ℚ
deriving DecidableEq, Repr

/-- `sum(float(b.get('size', 0)) * float(b.get('price', 0)) for b in levels)` —
the per-side depth computed by both collectors. -/
def depth (levels : List Level) : ℚ :=
  (levels.map (fun l => l.size * l.price)).sum

/-- `float(levels[0]['price']) if levels else None` — the best price of a side. -/
def bestPrice : List Level → Option ℚ
  | [] => none
  | l :: _ => some l.price

/-- `best_ask - best_bid if (best_bid and best_ask) else None`.
Python truthiness: both `None` and `0.0` are falsy, so the spread is stored
only when both best prices are present AND non-zero. -/
def spreadOf : Option ℚ → Option ℚ → Option ℚ
  | some b, some a => if b ≠ 0 ∧ a ≠ 0 then some (a - b) else none
  | _, none => none
  | none, _ => none

namespace WS

/-- One element of a `price_change` event's `price_changes` array.
`best_bid`/`best_ask` are `none` when the field is absent or falsy. -/
structure PriceDelta where
  asset_id : String
  price : ℚ
  size : ℚ
  side : String
  best_bid : Option ℚ
  best_ask : Option ℚ
deriving DecidableEq, Repr

/-- A push-feed event object, modelled by the fields the handlers read via
`data.get(...)`; absent fields are represented by their `.get` defaults. -/
structure RawEvent where
  event_type : String
  asset_id : String
  timestamp : Int
  bids : List Level
  asks : List Level
  price : ℚ
  size : ℚ
  side : String
  fee_rate_bps : String
  price_changes : List PriceDelta
deriving DecidableEq, Repr

/-- A row of the `orderbook_snapshots` table.  The DDL declares
`id SERIAL PRIMARY KEY` and a NON-unique index
`idx_ob_snap_token_ts ON orderbook_snapshots(token_id, timestamp)`;
no uniqueness constraint involves (token_id, timestamp). -/
structure SnapshotRow where
  token_id : String
  timestamp : Int
  bids : List Level
  asks : List Level
  best_bid : Option ℚ
  best_ask : Option ℚ
  spread : Option ℚ
  bid_depth : ℚ
  ask_depth : ℚ
deriving DecidableEq, Repr

/-- A row of the `realtime_trades` table (serial primary key, NON-unique
index on (token_id, timestamp), no other constraint). -/
structure TradeRow where
  token_id : String
  timestamp : Int
  price : ℚ
  size : ℚ
  side : String
  fee_rate_bps : String
deriving DecidableEq, Repr

/-- A row of the `price_changes` table. -/
structure PCRow where
  token_id : String
  timestamp : Int
  price : ℚ
  size : ℚ
  side : String
  best_bid : Option ℚ
  best_ask : Option ℚ
deriving DecidableEq, Repr

/-- In-memory state of the collector: the three tables plus the stats
counters it maintains. -/
structure CollectorState where
  orderbook_snapshots : List SnapshotRow
  realtime_trades : List TradeRow
  price_changes : List PCRow
  stats_books : Nat
  stats_trades : Nat
  stats_price_changes : Nat
deriving DecidableEq, Repr

/-- The empty collector state (fresh tables, zeroed counters). -/
def initState : CollectorState :=
  ⟨[], [], [], 0, 0, 0⟩

/-- The row built by `store_book_snapshot` from an incoming `book` event. -/
def mkSnapshotRow (data : RawEvent) : SnapshotRow :=
  { token_id := data.asset_id
    timestamp := data.timestamp
    bids := data.bids
    asks := data.asks
    best_bid := bestPrice data.bids
    best_ask := bestPrice data.asks
    spread := spreadOf (bestPrice data.bids) (bestPrice data.asks)
    bid_depth := depth data.bids
    ask_depth := depth data.asks }

/-- `store_book_snapshot`: a plain INSERT into `orderbook_snapshots`
(no ON CONFLICT clause), then `stats['books'] += 1`. -/
def store_book_snapshot (st : CollectorState) (data : RawEvent) : CollectorState :=
  { st with
    orderbook_snapshots := st.orderbook_snapshots ++ [mkSnapshotRow data]
    stats_books := st.stats_books + 1 }

/-- The row built by `store_trade` from a `last_trade_price` event. -/
def mkTradeRow (data : RawEvent) : TradeRow :=
  { token_id := data.asset_id
    timestamp := data.timestamp
    price := data.price
    size := data.size
    side := data.side
    fee_rate_bps := data.fee_rate_bps }

/-- `store_trade`: a plain INSERT into `realtime_trades`
(no ON CONFLICT clause), then `stats['trades'] += 1`. -/
def store_trade (st : CollectorState) (data : RawEvent) : CollectorState :=
  { st with
    realtime_trades := st.realtime_trades ++ [mkTradeRow data]
    stats_trades := st.stats_trades + 1 }

/-- One row of the `price_changes` insert: the event-level timestamp paired
with the delta's own asset id, price, size, side and best quotes. -/
def mkPCRow (timestamp : Int) (c : PriceDelta) : PCRow :=
  { token_id := c.asset_id
    timestamp := timestamp
    price := c.price
    size := c.size
    side := c.side
    best_bid := c.best_bid
    best_ask := c.best_ask }

/-- `store_price_change`: builds one value tuple per delta of
`data['price_changes']`; `if values:` guards the insert, so an empty delta
list performs no storage call and leaves the counter untouched; otherwise
all rows are inserted and `stats['price_changes'] += len(values)`. -/
def store_price_change (st : CollectorState) (data : RawEvent) : CollectorState :=
  let values := data.price_changes.map (mkPCRow data.timestamp)
  if values.isEmpty then st
  else
    { st with
      price_changes := st.price_changes ++ values
      stats_price_changes := st.stats_price_changes + values.length }

/-- The storage call `_process_event` routes an event to. -/
inductive StorageCall where
  | storeBook (e : RawEvent)
  | storeTrade (e : RawEvent)
  | storePriceChange (e : RawEvent)
deriving DecidableEq, Repr

/-- An element of a message: either a JSON object (a dict) or something
else, which `_process_event` ignores via its `isinstance(data, dict)` check. -/
inductive Item where
  | obj (e : RawEvent)
  | nonDict
deriving DecidableEq, Repr

/-- An incoming WebSocket message after `json.loads`: a single object, a
top-level array, or unparseable input (`json.JSONDecodeError` is swallowed). -/
inductive Message where
  | obj (e : RawEvent)
  | arr (items : List Item)
  | invalid
deriving DecidableEq, Repr

/-- `_process_event`: non-dicts are ignored; otherwise the `event_type`
string selects the handler, and unrecognized types fall through with no
storage call. -/
def processEvent : Item → List StorageCall
  | .nonDict => []
  | .obj e =>
    if e.event_type = "book" then [.storeBook e]
    else if e.event_type = "last_trade_price" then [.storeTrade e]
    else if e.event_type = "price_change" then [.storePriceChange e]
    else []

/-- `handle_message`: an array is iterated in order, each element processed
independently; a single object is processed directly; undecodable input
yields nothing. -/
def handle_message : Message → List StorageCall
  | .obj e => processEvent (.obj e)
  | .arr items => (items.map processEvent).flatten
  | .invalid => []

/-- Applying a storage call to the collector state (the body of each
`elif` branch of `_process_event`). -/
def applyCall (st : CollectorState) : StorageCall → CollectorState
  | .storeBook e => store_book_snapshot st e
  | .storeTrade e => store_trade st e
  | .storePriceChange e => store_price_change st e

/-- One iteration of the reconnect loop in `run()`: if the connect attempt
succeeded, `reconnect_delay` is reset to 1 inside the session; in either
case the loop tail sleeps the current delay and then doubles it, capped at
60.  Returns (wait slept at the end of this iteration, delay entering the
next iteration). -/
def reconnectStep (d : Nat) (connected : Bool) : Nat × Nat :=
  let d1 := if connected then 1 else d
  (d1, min (d1 * 2) 60)

/-- The sequence of waits produced by the reconnect loop from delay `d`
over a sequence of connect-attempt outcomes. -/
def reconnectWaits (d : Nat) : List Bool → List Nat
  | [] => []
  | ok :: rest =>
    (reconnectStep d ok).1 :: reconnectWaits (reconnectStep d ok).2 rest

/-- The value of `reconnect_delay` slept before attempt N+1, as a function
of N consecutive failed attempts starting from a fresh delay of 1:
the delay is doubled (capped at 60) after each failure. -/
def delayAfterFailures : Nat → Nat
  | 0 => 1
  | n + 1 => min (delayAfterFailures n * 2) 60

end WS

namespace Extract

/-- `BATCH_SIZE = 1000` — the page size requested from the subgraph. -/
def BATCH_SIZE : Nat := 1000

/-- An `orderFilledEvents` record as returned by the paginated source.
Record ids are modelled as naturals ordered like the remote's ascending
id order (the code relies on `orderBy: id, orderDirection: asc`). -/
structure FillRecord where
  id : Nat
  transactionHash : String
  timestamp : Int
  maker : String
  taker : String
  makerAssetId : String
  takerAssetId : String
  makerAmountFilled : Int
  takerAmountFilled : Int
  fee : Int
deriving DecidableEq, Repr

/-- A row of the local `trades` table, named per the INSERT column list. -/
structure TradeRow where
  id : Nat
  tx_hash : String
  timestamp : Int
  maker : String
  taker : String
  maker_asset_id : String
  taker_asset_id : String
  maker_amount : Int
  taker_amount : Int
  fee : Int
deriving DecidableEq, Repr

/-- The value tuple `insert_trades` builds from one fetched record. -/
def toRow (t : FillRecord) : TradeRow :=
  { id := t.id
    tx_hash := t.transactionHash
    timestamp := t.timestamp
    maker := t.maker
    taker := t.taker
    maker_asset_id := t.makerAssetId
    taker_asset_id := t.takerAssetId
    maker_amount := t.makerAmountFilled
    taker_amount := t.takerAmountFilled
    fee := t.fee }

/-- The ids currently stored in the `trades` table. -/
def ids (db : List TradeRow) : List Nat :=
  db.map (fun r => r.id)

/-- `insert_trades`: `INSERT INTO trades ... VALUES %s ON CONFLICT (id) DO
NOTHING`, one statement and one commit per page — a record whose id already
exists in the table (or earlier in the same page) is silently skipped,
every other record is appended.  (The Python function returns
`len(values)`, the page length, regardless of conflicts; that count feeds
only progress reporting.) -/
def insert_trades (db : List TradeRow) (trades : List FillRecord) : List TradeRow :=
  trades.foldl
    (fun acc t => if acc.any (fun r => r.id = t.id) then acc else acc ++ [toRow t]) db

/-- `get_last_trade_id`: `SELECT MAX(id) FROM trades`, with the empty-table
NULL mapped to the empty-string sentinel (here `none`). -/
def get_last_trade_id (db : List TradeRow) : Option Nat :=
  (ids db).max?

/-- The page query `extract_trades_batch` sends: `first: BATCH_SIZE`,
ascending by id, with `where: { id_gt: cursor }` present exactly when the
cursor is not the empty sentinel. -/
structure Query where
  first : Nat
  id_gt : Option Nat
deriving DecidableEq, Repr

/-- The query built for cursor `last_id`. -/
def tradesQuery (last_id : Option Nat) : Query :=
  ⟨BATCH_SIZE, last_id⟩

/-- Whether a record passes the query's `id_gt` filter (no clause ⇒ all
records match; otherwise strictly greater than the cursor). -/
def matchesCursor (id_gt : Option Nat) (r : FillRecord) : Bool :=
  match id_gt with
  | none => true
  | some x => x < r.id

/-- Semantics of a page query against a remote dataset already sorted
ascending by id (the hard precondition of §4.3): the first `first` records
with id strictly greater than the cursor. -/
def runQuery (dataset : List FillRecord) (q : Query) : List FillRecord :=
  (dataset.filter (matchesCursor q.id_gt)).take q.first

/-- A healthy remote: every page query succeeds and returns the query's
result over `dataset`. -/
def healthyQuery (dataset : List FillRecord) (last_id : Option Nat) :
    Option (List FillRecord) :=
  some (runQuery dataset (tradesQuery last_id))

/-- Outcome of one HTTP attempt inside `query_subgraph`. -/
inductive AttemptOutcome where
  | exn
  | gqlErrors
  | ok (events : List FillRecord)
deriving Repr

/-- The retry loop of `query_subgraph`, unrolled over at most `n` further
attempts starting at index `attempt`: an exception sleeps `2 ^ attempt`
seconds and retries; a response carrying GraphQL errors returns `None`
immediately (no retry); success returns the data.  Produces the result and
the list of sleeps performed. -/
def query_attempts (outcome : Nat → AttemptOutcome) :
    Nat → Nat → Option (List FillRecord) × List Nat
  | 0, _ => (none, [])
  | n + 1, attempt =>
    match outcome attempt with
    | .ok d => (some d, [])
    | .gqlErrors => (none, [])
    | .exn =>
      let r := query_attempts outcome n (attempt + 1)
      (r.1, 2 ^ attempt :: r.2)

/-- `query_subgraph`: `for attempt in range(3)` — exactly three attempts,
then `return None`. -/
def query_subgraph (outcome : Nat → AttemptOutcome) :
    Option (List FillRecord) × List Nat :=
  query_attempts outcome 3 0

/-- `extract_trades_batch`'s unwrapping of the query result:
`if data: return data.get('orderFilledEvents', [])` and `return []` when
the query failed — a failed page request is indistinguishable from an
empty page. -/
def extract_trades_batch (queryResult : Option (List FillRecord)) : List FillRecord :=
  match queryResult with
  | some d => d
  | none => []

/-- `last_id = trades[-1]['id']` — executed only on a non-empty page. -/
def advance_cursor (last_id : Option Nat) (trades : List FillRecord) : Option Nat :=
  match trades.getLast? with
  | some t => some t.id
  | none => last_id

/-- How the extraction run in `main` ends.  The `while True` loop has a
single exit: `break` on an empty page, after which `main` prints the
normal completion report — there is no abort path for page failures.
`outOfFuel` is an artifact of the bounded model only. -/
inductive RunOutcome where
  | completed (db : List TradeRow) (pageSizes : List Nat)
  | outOfFuel (db : List TradeRow) (pageSizes : List Nat)
deriving DecidableEq, Repr

/-- The extraction loop of `main`: fetch a page at the cursor; an empty
page breaks the loop (normal completion); otherwise insert the page (one
transaction), advance the cursor to the page's last id, and continue.
`pageSizes` records the number of records returned by each request, the
final empty request included. -/
def runLoop (fetchQuery : Option Nat → Option (List FillRecord)) :
    Nat → List TradeRow → Option Nat → List Nat → RunOutcome
  | 0, db, _, sizes => .outOfFuel db sizes
  | fuel + 1, db, last_id, sizes =>
    let trades := extract_trades_batch (fetchQuery last_id)
    if trades.isEmpty then .completed db (sizes ++ [0])
    else
      runLoop fetchQuery fuel (insert_trades db trades)
        (advance_cursor last_id trades) (sizes ++ [trades.length])

/-- `main` against a healthy remote `dataset`: if the local count already
reaches the remote total it exits without any page request; otherwise it
resumes from `get_last_trade_id` and runs the loop. -/
def main_run (dataset : List FillRecord) (db : List TradeRow) (fuel : Nat) :
    RunOutcome :=
  if dataset.length ≤ db.length then .completed db []
  else runLoop (healthyQuery dataset) fuel db (get_last_trade_id db) []

/-- The stub record with id `i` for the 2500-record scenario of §8. -/
def stubRecord (i : Nat) : FillRecord :=
  ⟨i, "tx", (i : Int), "m", "t", "a0", "a1", 1, 1, 0⟩

/-- A stub paginated source of `n` records with ids 1..n, ascending. -/
def stubDataset (n : Nat) : List FillRecord :=
  (List.range' 1 n).map stubRecord

/-- The local row corresponding to stub record `i`. -/
def stubRow (i : Nat) : TradeRow :=
  toRow (stubRecord i)

end Extract

namespace Poller

/-- A market record from the Market Directory, by the fields
`get_top_markets` reads.  `bestBid`/`bestAsk` are `none` when the field is
absent (then `m.get(...)` yields the default).  `parseError` models the
`float(...)` conversions raising, in which case the bare `except: pass`
skips the mid-price filter and the market is kept. -/
structure Market where
  bestBid : Option ℚ
  bestAsk : Option ℚ
  parseError : Bool
  clobTokenIds : List String
  slug : String
  question : String
deriving DecidableEq, Repr

/-- `float(m.get('bestBid', 0) or 0)`: absent ⇒ 0 (a falsy present 0 also
yields 0, the same value). -/
def bidOrDefault : Option ℚ → ℚ
  | none => 0
  | some v => v

/-- `float(m.get('bestAsk', 1) or 1)`: absent ⇒ 1, and a falsy present 0
also falls back to 1. -/
def askOrDefault : Option ℚ → ℚ
  | none => 1
  | some v => if v = 0 then 1 else v

/-- `mid_price = (best_bid + best_ask) / 2`. -/
def mid_price (m : Market) : ℚ :=
  (bidOrDefault m.bestBid + askOrDefault m.bestAsk) / 2

/-- Whether the market survives the mid-price filter:
`if mid_price < 0.10 or mid_price > 0.90: continue` — a market is skipped
exactly when its mid price is below 0.10 or above 0.90; when the price
conversion raises, the `continue` is never reached and the market is kept. -/
def passesMidFilter (m : Market) : Bool :=
  if m.parseError then true
  else ¬ (mid_price m < 1/10 ∨ mid_price m > 9/10)

/-- A selected polling target: first token id, slug, question truncated
to 50 characters. -/
structure Target where
  token : String
  slug : String
  question : String
deriving DecidableEq, Repr

/-- The selection loop of `get_top_markets`: stop once `limit` targets are
collected; drop markets failing the mid-price filter; drop markets with no
(parseable, non-empty) `clobTokenIds`; otherwise append a target built from
the first token id. -/
def get_top_markets_go (limit : Nat) : List Market → List Target → List Target
  | [], acc => acc
  | m :: rest, acc =>
    if limit ≤ acc.length then acc
    else if passesMidFilter m then
      match m.clobTokenIds with
      | [] => get_top_markets_go limit rest acc
      | tid :: _ =>
        get_top_markets_go limit rest (acc ++ [⟨tid, m.slug, m.question.take 50⟩])
    else get_top_markets_go limit rest acc

/-- `get_top_markets` over the directory's market list. -/
def get_top_markets (markets : List Market) (limit : Nat) : List Target :=
  get_top_markets_go limit markets []

/-- An order-book payload returned by a successful fetch. -/
structure Book where
  bids : List Level
  asks : List Level
deriving DecidableEq, Repr

/-- `timeout=aiohttp.ClientTimeout(total=10)` — each fetch carries its own
10-second timeout. -/
def fetch_timeout : Nat := 10

/-- Poller state: the `orderbook_snapshots` table (shared with the stream
collector, same plain-INSERT semantics) and the stats counters. -/
structure PollerState where
  orderbook_snapshots : List WS.SnapshotRow
  stats_snapshots : Nat
  stats_errors : Nat
deriving DecidableEq, Repr

/-- The row built by the poller's `store_snapshot` (identical computation
to the stream collector's, with the capture time taken from the clock). -/
def mkSnapshotRow (token_id : String) (now_ms : Int) (data : Book) : WS.SnapshotRow :=
  { token_id := token_id
    timestamp := now_ms
    bids := data.bids
    asks := data.asks
    best_bid := bestPrice data.bids
    best_ask := bestPrice data.asks
    spread := spreadOf (bestPrice data.bids) (bestPrice data.asks)
    bid_depth := depth data.bids
    ask_depth := depth data.asks }

/-- `store_snapshot`: plain INSERT of one row, then
`stats['snapshots'] += 1`. -/
def store_snapshot (st : PollerState) (token_id : String) (now_ms : Int)
    (data : Book) : PollerState :=
  { st with
    orderbook_snapshots := st.orderbook_snapshots ++ [mkSnapshotRow token_id now_ms data]
    stats_snapshots := st.stats_snapshots + 1 }

/-- Processing of one batch in `run()`: the batch's fetches are gathered
(`return_exceptions=True`) into one outcome per target — `none` models a
timeout, transport error, or non-200 response (`fetch_orderbook` returns
`None` in each case, and a falsy/exception gather result is filtered by
`if result and not isinstance(result, Exception)`).  Each successful
target's book is stored; failed targets are simply skipped. -/
def processBatch (st : PollerState) (now_ms : Int)
    (outcomes : List (Target × Option Book)) : PollerState :=
  outcomes.foldl
    (fun acc tr =>
      match tr.2 with
      | some book => store_snapshot acc tr.1.token now_ms book
      | none => acc) st

end Poller

namespace Samples

/-- A concrete `book` event used by witnesses and counterexamples. -/
def bookEv : WS.RawEvent :=
  { event_type := "book", asset_id := "tokA", timestamp := 1700
    bids := [⟨1/2, 10⟩, ⟨2/5, 5⟩], asks := [⟨3/5, 8⟩]
    price := 0, size := 0, side := "", fee_rate_bps := "", price_changes := [] }

/-- A `book` event whose best bid parses to 0 while both sides are
non-empty. -/
def zeroBidBookEv : WS.RawEvent :=
  { event_type := "book", asset_id := "tokB", timestamp := 1701
    bids := [⟨0, 10⟩], asks := [⟨3/5, 8⟩]
    price := 0, size := 0, side := "", fee_rate_bps := "", price_changes := [] }

/-- A concrete `last_trade_price` event. -/
def tradeEv : WS.RawEvent :=
  { event_type := "last_trade_price", asset_id := "tokA", timestamp := 1702
    bids := [], asks := [], price := 11/20, size := 3, side := "BUY"
    fee_rate_bps := "0", price_changes := [] }

/-- A concrete `price_change` event with two deltas. -/
def pcEv : WS.RawEvent :=
  { event_type := "price_change", asset_id := "", timestamp := 1703
    bids := [], asks := [], price := 0, size := 0, side := "", fee_rate_bps := ""
    price_changes :=
      [⟨"tokA", 1/2, 7, "SELL", some (1/2), some (11/20)⟩,
       ⟨"tokB", 1/4, 2, "BUY", none, some (3/10)⟩] }

/-- A `price_change` event with an empty delta list. -/
def emptyPcEv : WS.RawEvent :=
  { event_type := "price_change", asset_id := "", timestamp := 1704
    bids := [], asks := [], price := 0, size := 0, side := "", fee_rate_bps := ""
    price_changes := [] }

/-- An event with an unrecognized event type. -/
def unknownEv : WS.RawEvent :=
  { event_type := "tick_size_change", asset_id := "tokA", timestamp := 1705
    bids := [], asks := [], price := 0, size := 0, side := "", fee_rate_bps := ""
    price_changes := [] }

/-- A directory market whose best bid and ask both equal `v`, so its mid
price is exactly `v`. -/
def midMarket (v : ℚ) : Poller.Market :=
  ⟨some v, some v, false, ["tk"], "s", "q"⟩

/-- A concrete order-book payload for poller witnesses. -/
def book1 : Poller.Book :=
  ⟨[⟨1/2, 10⟩], [⟨3/5, 8⟩]⟩

/-- A concrete poller target. -/
def target1 : Poller.Target :=
  ⟨"tokP", "s", "q"⟩

/-- A second concrete poller target (its fetch will fail in witnesses). -/
def target2 : Poller.Target :=
  ⟨"tokQ", "s2", "q2"⟩

end Samples

/-! ## Helper lemmas -/

theorem minDouble (j : Nat) : min (min (2 ^ j) 60 * 2) 60 = min (2 ^ (j + 1)) 60 := by
  have h : 2 ^ (j + 1) = 2 ^ j * 2 := by ring
  omega

theorem range'_take (s n k : Nat) :
    (List.range' s n).take k = List.range' s (min k n) := by
  induction n generalizing s k with
  | zero => simp
  | succ n ih =>
    cases k with
    | zero => simp
    | succ k =>
      rw [List.range'_succ, List.take_succ_cons, ih (s + 1) k,
        Nat.succ_min_succ, List.range'_succ]

theorem range'_getLast? (s n : Nat) :
    (List.range' s (n + 1)).getLast? = some (s + n) := by
  induction n generalizing s with
  | zero => simp [List.range'_succ]
  | succ n ih =>
    rw [List.range'_succ, List.range'_succ, List.getLast?_cons_cons,
      ← List.range'_succ, ih (s + 1)]
    congr 1
    omega

theorem range'_filter_gt (n x : Nat) (h : x ≤ n) :
    (List.range' 1 n).filter (fun m => decide (x < m)) = List.range' (x + 1) (n - x) := by
  have hsplit : List.range' 1 x ++ List.range' (1 + x) (n - x) = List.range' 1 n := by
    have happ := List.range'_append 1 x (n - x) 1
    rw [one_mul, Nat.sub_add_cancel h] at happ
    exact happ
  rw [← hsplit, List.filter_append]
  have h1 : (List.range' 1 x).filter (fun m => decide (x < m)) = [] := by
    rw [List.filter_eq_nil_iff]
    intro a ha
    rw [List.mem_range'_1] at ha
    simp
    omega
  have h2 : (List.range' (1 + x) (n - x)).filter (fun m => decide (x < m))
      = List.range' (1 + x) (n - x) := by
    rw [List.filter_eq_self]
    intro a ha
    rw [List.mem_range'_1] at ha
    simp
    omega
  rw [h1, h2, List.nil_append]
  congr 1
  omega

theorem reconnectWaits_replicate (k j : Nat) :
    WS.reconnectWaits (min (2 ^ j) 60) (List.replicate k false)
      = (List.range' j k).map (fun i => min (2 ^ i) 60) := by
  induction k generalizing j with
  | zero => simp [WS.reconnectWaits]
  | succ k ih =>
    rw [List.replicate_succ, List.range'_succ, List.map_cons]
    have hstep : WS.reconnectWaits (min (2 ^ j) 60) (false :: List.replicate k false)
        = min (2 ^ j) 60 ::
            WS.reconnectWaits (min (min (2 ^ j) 60 * 2) 60) (List.replicate k false) := by
      simp [WS.reconnectWaits, WS.reconnectStep]
    rw [hstep, minDouble, ih (j + 1)]

theorem reconnectWaits_replicate_getLast (k j : Nat) :
    (WS.reconnectWaits (min (2 ^ j) 60) (List.replicate (k + 1) false)).getLast?
      = some (min (2 ^ (j + k)) 60) := by
  rw [reconnectWaits_replicate, List.getLast?_map, range'_getLast? j k]
  rfl

namespace Extract

theorem filter_matchesCursor_map (x : Nat) (l : List Nat) :
    (l.map stubRecord).filter (matchesCursor (some x))
      = (l.filter (fun m => decide (x < m))).map stubRecord := by
  induction l with
  | nil => rfl
  | cons a l ih =>
    by_cases hx : x < a
    · simp [List.filter_cons, matchesCursor, stubRecord, hx, ih]
    · simp [List.filter_cons, matchesCursor, stubRecord, hx, ih]

theorem filter_matchesCursor_none (l : List FillRecord) :
    l.filter (matchesCursor none) = l := by
  rw [List.filter_eq_self]
  intro a _
  rfl

theorem stub_batch_none (n : Nat) :
    extract_trades_batch (healthyQuery (stubDataset n) none)
      = (List.range' 1 (min BATCH_SIZE n)).map stubRecord := by
  show runQuery (stubDataset n) (tradesQuery none) = _
  rw [runQuery, tradesQuery]
  rw [show (⟨BATCH_SIZE, none⟩ : Query).id_gt = none from rfl]
  rw [filter_matchesCursor_none, stubDataset, ← List.map_take, range'_take]

theorem stub_batch_some (n x : Nat) (h : x ≤ n) :
    extract_trades_batch (healthyQuery (stubDataset n) (some x))
      = (List.range' (x + 1) (min BATCH_SIZE (n - x))).map stubRecord := by
  show runQuery (stubDataset n) (tradesQuery (some x)) = _
  rw [runQuery, tradesQuery]
  rw [show (⟨BATCH_SIZE, some x⟩ : Query).id_gt = some x from rfl]
  rw [stubDataset, filter_matchesCursor_map, range'_filter_gt n x h,
    ← List.map_take, range'_take]

theorem stub_record_ids (l : List Nat) :
    (l.map stubRecord).map (fun r => r.id) = l := by
  rw [List.map_map]
  exact List.map_id l

theorem stub_row_ids (l : List Nat) :
    ids (l.map stubRow) = l := by
  rw [ids, List.map_map]
  exact List.map_id l

theorem insert_trades_disjoint (db : List TradeRow) (page : List FillRecord)
    (h : (ids db ++ page.map (fun t => t.id)).Nodup) :
    insert_trades db page = db ++ page.map toRow := by
  induction page generalizing db with
  | nil => simp [insert_trades]
  | cons t rest ih =>
    have hnotin : t.id ∉ ids db := by
      rw [List.nodup_append] at h
      intro hmem
      exact h.2.2 hmem (by simp)
    have hany : db.any (fun r => r.id = t.id) = false := by
      rw [List.any_eq_false]
      intro r hr
      simp only [decide_eq_true_eq]
      intro heq
      exact hnotin (heq ▸ List.mem_map_of_mem (fun r => r.id) hr)
    have hstep : insert_trades db (t :: rest) = insert_trades (db ++ [toRow t]) rest := by
      simp only [insert_trades, List.foldl_cons, hany, Bool.false_eq_true, if_false]
    rw [hstep, ih (db ++ [toRow t])]
    · simp
    · have hids : ids (db ++ [toRow t]) = ids db ++ [t.id] := by
        simp [ids, toRow]
      simp only [List.map_cons] at h
      rw [hids, List.append_assoc, List.singleton_append]
      exact h

theorem map_toRow_stub (l : List Nat) : (l.map stubRecord).map toRow = l.map stubRow := by
  rw [List.map_map]
  rfl

theorem insert_trades_stub (m k : Nat) :
    insert_trades ((List.range' 1 m).map stubRow) ((List.range' (m + 1) k).map stubRecord)
      = (List.range' 1 (k + m)).map stubRow := by
  have hr : List.range' 1 m ++ List.range' (m + 1) k = List.range' 1 (k + m) := by
    have happ := List.range'_append 1 m k 1
    rw [one_mul] at happ
    rw [Nat.add_comm 1 m] at happ
    exact happ
  rw [insert_trades_disjoint]
  · rw [map_toRow_stub, ← List.map_append, hr]
  · rw [stub_row_ids, stub_record_ids, hr]
    exact List.nodup_range' 1 (k + m)

theorem advance_cursor_stub (c : Option Nat) (s k : Nat) :
    advance_cursor c ((List.range' s (k + 1)).map stubRecord) = some (s + k) := by
  have h : ((List.range' s (k + 1)).map stubRecord).getLast? = some (stubRecord (s + k)) := by
    rw [List.getLast?_map, range'_getLast?]
    rfl
  rw [advance_cursor, h]
  rfl

theorem runLoop_succ (fq : Option Nat → Option (List FillRecord)) (fuel : Nat)
    (db : List TradeRow) (last_id : Option Nat) (sizes : List Nat) :
    runLoop fq (fuel + 1) db last_id sizes
      = if (extract_trades_batch (fq last_id)).isEmpty
          then .completed db (sizes ++ [0])
          else runLoop fq fuel (insert_trades db (extract_trades_batch (fq last_id)))
            (advance_cursor last_id (extract_trades_batch (fq last_id)))
            (sizes ++ [(extract_trades_batch (fq last_id)).length]) := rfl

theorem runLoop_step {fq : Option Nat → Option (List FillRecord)} {last_id : Option Nat}
    {page : List FillRecord} (hpage : extract_trades_batch (fq last_id) = page)
    (hne : page ≠ []) (fuel : Nat) (db : List TradeRow) (sizes : List Nat) :
    runLoop fq (fuel + 1) db last_id sizes
      = runLoop fq fuel (insert_trades db page) (advance_cursor last_id page)
          (sizes ++ [page.length]) := by
  have hemp : page.isEmpty = false := List.isEmpty_eq_false.mpr hne
  rw [runLoop_succ, hpage, hemp]
  simp

theorem runLoop_step_empty {fq : Option Nat → Option (List FillRecord)} {last_id : Option Nat}
    (hpage : extract_trades_batch (fq last_id) = []) (fuel : Nat)
    (db : List TradeRow) (sizes : List Nat) :
    runLoop fq (fuel + 1) db last_id sizes = .completed db (sizes ++ [0]) := by
  rw [runLoop_succ, hpage]
  simp

theorem stubRun_eq :
    main_run (stubDataset 2500) [] 10
      = .completed ((List.range' 1 2500).map stubRow) [1000, 1000, 500, 0] := by
  have hb1 : extract_trades_batch (healthyQuery (stubDataset 2500) none)
      = (List.range' 1 1000).map stubRecord := by
    rw [stub_batch_none]
    norm_num [BATCH_SIZE]
  have hb2 : extract_trades_batch (healthyQuery (stubDataset 2500) (some 1000))
      = (List.range' 1001 1000).map stubRecord := by
    rw [stub_batch_some 2500 1000 (by norm_num)]
    norm_num [BATCH_SIZE]
  have hb3 : extract_trades_batch (healthyQuery (stubDataset 2500) (some 2000))
      = (List.range' 2001 500).map stubRecord := by
    rw [stub_batch_some 2500 2000 (by norm_num)]
    norm_num [BATCH_SIZE]
  have hb4 : extract_trades_batch (healthyQuery (stubDataset 2500) (some 2500))
      = [] := by
    rw [stub_batch_some 2500 2500 (by norm_num)]
    norm_num
  have hne1 : (List.range' 1 1000).map stubRecord ≠ [] := by
    simp [← List.length_pos_iff_ne_nil, List.length_range']
  have hne2 : (List.range' 1001 1000).map stubRecord ≠ [] := by
    simp [← List.length_pos_iff_ne_nil, List.length_range']
  have hne3 : (List.range' 2001 500).map stubRecord ≠ [] := by
    simp [← List.length_pos_iff_ne_nil, List.length_range']
  have hins1 : insert_trades [] ((List.range' 1 1000).map stubRecord)
      = (List.range' 1 1000).map stubRow := by
    have h := insert_trades_stub 0 1000
    norm_num at h
    exact h
  have hins2 : insert_trades ((List.range' 1 1000).map stubRow)
      ((List.range' 1001 1000).map stubRecord) = (List.range' 1 2000).map stubRow := by
    have h := insert_trades_stub 1000 1000
    norm_num at h
    exact h
  have hins3 : insert_trades ((List.range' 1 2000).map stubRow)
      ((List.range' 2001 500).map stubRecord) = (List.range' 1 2500).map stubRow := by
    have h := insert_trades_stub 2000 500
    norm_num at h
    exact h
  have hadv1 : advance_cursor none ((List.range' 1 1000).map stubRecord) = some 1000 := by
    have h := advance_cursor_stub none 1 999
    norm_num at h
    exact h
  have hadv2 : advance_cursor (some 1000) ((List.range' 1001 1000).map stubRecord)
      = some 2000 := by
    have h := advance_cursor_stub (some 1000) 1001 999
    norm_num at h
    exact h
  have hadv3 : advance_cursor (some 2000) ((List.range' 2001 500).map stubRecord)
      = some 2500 := by
    have h := advance_cursor_stub (some 2000) 2001 499
    norm_num at h
    exact h
  have hl1 : ((List.range' 1 1000).map stubRecord).length = 1000 := by
    simp [List.length_range']
  have hl2 : ((List.range' 1001 1000).map stubRecord).length = 1000 := by
    simp [List.length_range']
  have hl3 : ((List.range' 2001 500).map stubRecord).length = 500 := by
    simp [List.length_range']
  rw [main_run, if_neg (by simp [stubDataset, List.length_range'])]
  rw [show get_last_trade_id [] = none from rfl]
  rw [show (10 : Nat) = 9 + 1 from rfl, runLoop_step hb1 hne1, hins1, hadv1, hl1]
  rw [show (9 : Nat) = 8 + 1 from rfl, runLoop_step hb2 hne2, hins2, hadv2, hl2]
  rw [show (8 : Nat) = 7 + 1 from rfl, runLoop_step hb3 hne3, hins3, hadv3, hl3]
  rw [show (7 : Nat) = 6 + 1 from rfl, runLoop_step_empty hb4]
  simp

theorem insert_trades_cons (db : List TradeRow) (t : FillRecord) (rest : List FillRecord) :
    insert_trades db (t :: rest)
      = insert_trades (if db.any (fun r => r.id = t.id) then db else db ++ [toRow t]) rest := rfl

theorem mem_ids_insert_trades_of_mem_ids {x : Nat} (db : List TradeRow)
    (page : List FillRecord) (h : x ∈ ids db) : x ∈ ids (insert_trades db page) := by
  induction page generalizing db with
  | nil => exact h
  | cons t rest ih =>
    rw [insert_trades_cons]
    apply ih
    by_cases hc : db.any (fun r => r.id = t.id) = true
    · rw [if_pos hc]
      exact h
    · rw [if_neg hc]
      simp only [ids, List.map_append]
      exact List.mem_append_left _ h

theorem mem_ids_insert_trades {t : FillRecord} (db : List TradeRow)
    (page : List FillRecord) (ht : t ∈ page) : t.id ∈ ids (insert_trades db page) := by
  induction page generalizing db with
  | nil => cases ht
  | cons a rest ih =>
    rw [insert_trades_cons]
    rcases List.mem_cons.mp ht with heq | hrest
    · subst heq
      apply mem_ids_insert_trades_of_mem_ids
      by_cases hc : db.any (fun r => r.id = t.id) = true
      · rw [if_pos hc]
        rw [List.any_eq_true] at hc
        obtain ⟨r, hr, hid⟩ := hc
        simp only [decide_eq_true_eq] at hid
        rw [ids, List.mem_map]
        exact ⟨r, hr, hid⟩
      · rw [if_neg hc]
        simp [ids, toRow]
    · exact ih _ hrest

theorem insert_trades_nodup (db : List TradeRow) (page : List FillRecord)
    (h : (ids db).Nodup) : (ids (insert_trades db page)).Nodup := by
  induction page generalizing db with
  | nil => exact h
  | cons t rest ih =>
    rw [insert_trades_cons]
    apply ih
    by_cases hc : db.any (fun r => r.id = t.id) = true
    · rw [if_pos hc]
      exact h
    · rw [if_neg hc]
      have hnotin : t.id ∉ ids db := by
        intro hmem
        rw [ids, List.mem_map] at hmem
        obtain ⟨r, hr, hid⟩ := hmem
        exact hc (List.any_eq_true.mpr ⟨r, hr, by simpa using hid⟩)
      have hids : ids (db ++ [toRow t]) = ids db ++ [t.id] := by
        simp [ids, toRow]
      rw [hids, List.nodup_append]
      refine ⟨h, List.nodup_singleton _, ?_⟩
      intro a ha hmem
      rw [List.mem_singleton] at hmem
      subst hmem
      exact hnotin ha

theorem insert_trades_append_only (db : List TradeRow) (page : List FillRecord) :
    ∃ ext, insert_trades db page = db ++ ext := by
  induction page generalizing db with
  | nil => exact ⟨[], by simp [insert_trades]⟩
  | cons t rest ih =>
    rw [insert_trades_cons]
    by_cases hc : db.any (fun r => r.id = t.id) = true
    · rw [if_pos hc]
      exact ih db
    · rw [if_neg hc]
      obtain ⟨ext, hext⟩ := ih (db ++ [toRow t])
      exact ⟨[toRow t] ++ ext, by rw [hext, List.append_assoc]⟩

theorem insert_trades_noop (db : List TradeRow) (page : List FillRecord)
    (h : ∀ t ∈ page, t.id ∈ ids db) : insert_trades db page = db := by
  induction page with
  | nil => rfl
  | cons t rest ih =>
    rw [insert_trades_cons]
    have hc : db.any (fun r => r.id = t.id) = true := by
      rw [List.any_eq_true]
      have := h t (by simp)
      rw [ids, List.mem_map] at this
      obtain ⟨r, hr, hid⟩ := this
      exact ⟨r, hr, by simpa using hid⟩
    rw [if_pos hc]
    exact ih (fun t ht => h t (by simp [ht]))

theorem batch_id_gt (dataset : List FillRecord) (x : Nat) (t : FillRecord)
    (ht : t ∈ extract_trades_batch (healthyQuery dataset (some x))) : x < t.id := by
  have hmem : t ∈ dataset.filter (matchesCursor (some x)) :=
    List.mem_of_mem_take ht
  have := (List.mem_filter.mp hmem).2
  simpa [matchesCursor] using this

end Extract

theorem processBatch_cons (st : Poller.PollerState) (now : Int)
    (a : Poller.Target × Option Poller.Book) (rest : List (Poller.Target × Option Poller.Book)) :
    Poller.processBatch st now (a :: rest)
      = Poller.processBatch
          (match a.2 with
           | some book => Poller.store_snapshot st a.1.token now book
           | none => st) now rest := rfl

theorem processBatch_snapshots (st : Poller.PollerState) (now : Int)
    (outcomes : List (Poller.Target × Option Poller.Book)) :
    (Poller.processBatch st now outcomes).orderbook_snapshots
      = st.orderbook_snapshots
        ++ outcomes.filterMap
            (fun tr => tr.2.map (Poller.mkSnapshotRow tr.1.token now)) := by
  induction outcomes generalizing st with
  | nil => simp [Poller.processBatch]
  | cons a rest ih =>
    obtain ⟨t, r⟩ := a
    cases r with
    | none =>
      rw [processBatch_cons]
      simp only [ih]
      simp [List.filterMap_cons]
    | some b =>
      rw [processBatch_cons]
      simp only [ih]
      simp [List.filterMap_cons, Poller.store_snapshot, List.append_assoc]

theorem bestPrice_eq_none_iff (l : List Level) : bestPrice l = none ↔ l = [] := by
  cases l <;> simp [bestPrice]

theorem spreadOf_none_of_zero (bb ba : Option ℚ)
    (h : bb = some 0 ∨ ba = some 0) : spreadOf bb ba = none := by
  cases bb with
  | none => cases ba <;> rfl
  | some b =>
    cases ba with
    | none => rfl
    | some a =>
      rcases h with h | h <;> injection h with h' <;> subst h' <;>
        simp [spreadOf]

theorem spreadOf_eq_some_iff (bb ba : Option ℚ) (s : ℚ) :
    spreadOf bb ba = some s ↔
      ∃ b a, bb = some b ∧ ba = some a ∧ b ≠ 0 ∧ a ≠ 0 ∧ s = a - b := by
  cases bb with
  | none => cases ba <;> simp [spreadOf]
  | some b =>
    cases ba with
    | none => simp [spreadOf]
    | some a =>
      by_cases hz : b ≠ 0 ∧ a ≠ 0
      · simp only [spreadOf, if_pos hz]
        constructor
        · intro h
          injection h with h'
          exact ⟨b, a, rfl, rfl, hz.1, hz.2, h'.symm⟩
        · rintro ⟨b', a', hb, ha, _, _, hs⟩
          injection hb with hb
          injection ha with ha
          subst hb
          subst ha
          rw [hs]
      · simp only [spreadOf, if_neg hz]
        constructor
        · intro h
          cases h
        · rintro ⟨b', a', hb, ha, hb0, ha0, _⟩
          injection hb with hb
          injection ha with ha
          subst hb
          subst ha
          exact absurd ⟨hb0, ha0⟩ hz

/-! ## Claim theorems -/

/-- Claim C1, counterexample: storing the same `book` event twice through
`store_book_snapshot` yields two rows with the same (token, timestamp) key,
not one — the table has no uniqueness constraint over (token_id, timestamp)
and the insert has no ON CONFLICT clause, so the duplicate is not rejected. -/
theorem claimC1_counterexample :
    ((WS.store_book_snapshot (WS.store_book_snapshot WS.initState Samples.bookEv)
          Samples.bookEv).orderbook_snapshots.filter
        (fun r => decide (r.token_id = "tokA" ∧ r.timestamp = 1700))).length = 2
    ∧ ¬ ((WS.store_book_snapshot (WS.store_book_snapshot WS.initState Samples.bookEv)
          Samples.bookEv).orderbook_snapshots.filter
        (fun r => decide (r.token_id = "tokA" ∧ r.timestamp = 1700))).length = 1 := by
  decide

/-- Claim C1, amended: the streaming tables carry only a serial primary key
and a NON-unique index on (token_id, timestamp), and `store_book_snapshot`
and `store_trade` perform plain INSERTs, so inserting the same
(token, timestamp) snapshot or trade twice yields exactly two stored rows
with that key — duplicates are not rejected. -/
theorem claimC1_amended (st : WS.CollectorState) (e : WS.RawEvent) :
    ((WS.store_book_snapshot (WS.store_book_snapshot st e) e).orderbook_snapshots.filter
        (fun r => decide (r.token_id = e.asset_id ∧ r.timestamp = e.timestamp))).length
      = (st.orderbook_snapshots.filter
          (fun r => decide (r.token_id = e.asset_id ∧ r.timestamp = e.timestamp))).length + 2
    ∧ ((WS.store_trade (WS.store_trade st e) e).realtime_trades.filter
        (fun r => decide (r.token_id = e.asset_id ∧ r.timestamp = e.timestamp))).length
      = (st.realtime_trades.filter
          (fun r => decide (r.token_id = e.asset_id ∧ r.timestamp = e.timestamp))).length + 2 := by
  constructor
  · simp [WS.store_book_snapshot, WS.mkSnapshotRow, List.filter_append]
  · simp [WS.store_trade, WS.mkTradeRow, List.filter_append]

/-- Claim C2, counterexample: against the stub paginated source of 2500
records with page size 1000, the run makes FOUR page requests (returning
1000, 1000, 500 and 0 records) — the loop can only terminate by issuing a
further request that comes back empty, so it does not make exactly 3
requests. -/
theorem claimC2_counterexample :
    Extract.main_run (Extract.stubDataset 2500) [] 10
        = .completed ((List.range' 1 2500).map Extract.stubRow) [1000, 1000, 500, 0]
    ∧ ¬ ∃ db : List Extract.TradeRow,
        Extract.main_run (Extract.stubDataset 2500) [] 10
          = .completed db [1000, 1000, 500] := by
  refine ⟨Extract.stubRun_eq, ?_⟩
  rintro ⟨db, hdb⟩
  rw [Extract.stubRun_eq] at hdb
  simp at hdb

/-- Claim C2, amended: a resumed backfill requests each page with an
`id_gt` cursor so that only records with id strictly greater than the
last-seen id are returned (hence inserted), and it terminates when an
empty page is returned with local count equal to the remote total; against
the stub paginated source of 2500 records with page size 1000 it makes
exactly 4 requests returning 1000, 1000, 500 and 0 records — three
non-empty pages plus the empty page that signals termination — and ends
with 2500 rows stored. -/
theorem claimC2_amended :
    (∀ (dataset : List Extract.FillRecord) (x : Nat) (t : Extract.FillRecord),
        t ∈ Extract.extract_trades_batch (Extract.healthyQuery dataset (some x)) →
          x < t.id)
    ∧ Extract.main_run (Extract.stubDataset 2500) [] 10
        = .completed ((List.range' 1 2500).map Extract.stubRow) [1000, 1000, 500, 0]
    ∧ ((List.range' 1 2500).map Extract.stubRow).length = (Extract.stubDataset 2500).length
    ∧ ((List.range' 1 2500).map Extract.stubRow).length = 2500 := by
  refine ⟨Extract.batch_id_gt, Extract.stubRun_eq, ?_, ?_⟩ <;>
    simp [Extract.stubDataset, List.length_range']

/-- Claim C2, witness: the cursor property at a concrete input — a record
returned for cursor `id_gt = 3` has id strictly greater than 3. -/
theorem claimC2_witness :
    Extract.stubRecord 5 ∈ Extract.extract_trades_batch
        (Extract.healthyQuery [Extract.stubRecord 5] (some 3))
    ∧ 3 < (Extract.stubRecord 5).id := by
  refine ⟨by decide, claimC2_amended.1 [Extract.stubRecord 5] 3 _ (by decide)⟩

/-- Claim C3, counterexample: after 1 consecutive connect failure the wait
before attempt 2 is 1 second (the loop sleeps the CURRENT delay and only
then doubles it), not min(1s·2^1, 60s) = 2 seconds. -/
theorem claimC3_counterexample :
    (WS.reconnectWaits 1 (List.replicate 1 false)).getLast? = some 1
    ∧ (WS.reconnectWaits 1 (List.replicate 1 false)).getLast?
        ≠ some (min (1 * 2 ^ 1) 60) := by
  decide

/-- Claim C3, amended: after N ≥ 1 consecutive connect failures the wait
before attempt N+1 equals min(1s·2^(N−1), 60s) — one power of two lower
than claimed, because the loop sleeps the current delay before doubling —
and one successful connect resets the delay so that the next wait is 1s. -/
theorem claimC3_amended (N : Nat) (h : 1 ≤ N) (d : Nat) :
    (WS.reconnectWaits 1 (List.replicate N false)).getLast?
        = some (min (2 ^ (N - 1)) 60)
    ∧ WS.reconnectWaits d [true] = [1]
    ∧ (WS.reconnectStep d true).1 = 1 := by
  refine ⟨?_, by simp [WS.reconnectWaits, WS.reconnectStep], rfl⟩
  obtain ⟨k, rfl⟩ : ∃ k, N = k + 1 := ⟨N - 1, (Nat.succ_pred_eq_of_pos h).symm⟩
  have hrep := reconnectWaits_replicate_getLast k 0
  norm_num at hrep
  simpa using hrep

/-- Claim C3, witness: after 7 consecutive failures the wait caps at 60s,
and a success resets the next wait to 1s. -/
theorem claimC3_witness :
    (WS.reconnectWaits 1 (List.replicate 7 false)).getLast? = some 60
    ∧ WS.reconnectWaits 13 [true] = [1]
    ∧ (WS.reconnectStep 13 true).1 = 1 := by
  have h := claimC3_amended 7 (by norm_num) 13
  refine ⟨?_, h.2.1, h.2.2⟩
  rw [h.1]
  norm_num

theorem mid_price_midMarket (v : ℚ) (hv : v ≠ 0) :
    Poller.mid_price (Samples.midMarket v) = v := by
  simp only [Poller.mid_price, Samples.midMarket, Poller.bidOrDefault,
    Poller.askOrDefault, if_neg hv]
  ring

theorem passesMidFilter_midMarket (v : ℚ) (hv : v ≠ 0) :
    Poller.passesMidFilter (Samples.midMarket v) = true ↔ 1/10 ≤ v ∧ v ≤ 9/10 := by
  have hpe : (Samples.midMarket v).parseError = false := rfl
  rw [Poller.passesMidFilter, hpe]
  simp [mid_price_midMarket v hv, not_or, not_lt]

theorem passes_1_20 : Poller.passesMidFilter (Samples.midMarket (1/20)) = false := by
  have h := passesMidFilter_midMarket (1/20) (by norm_num)
  simp only [Bool.eq_false_iff]
  intro hc
  have := h.mp hc
  norm_num at this

theorem passes_19_20 : Poller.passesMidFilter (Samples.midMarket (19/20)) = false := by
  have h := passesMidFilter_midMarket (19/20) (by norm_num)
  simp only [Bool.eq_false_iff]
  intro hc
  have := h.mp hc
  norm_num at this

theorem passes_1_2 : Poller.passesMidFilter (Samples.midMarket (1/2)) = true :=
  (passesMidFilter_midMarket (1/2) (by norm_num)).mpr (by norm_num)

theorem passes_1_10 : Poller.passesMidFilter (Samples.midMarket (1/10)) = true :=
  (passesMidFilter_midMarket (1/10) (by norm_num)).mpr (by norm_num)

theorem passes_9_10 : Poller.passesMidFilter (Samples.midMarket (9/10)) = true :=
  (passesMidFilter_midMarket (9/10) (by norm_num)).mpr (by norm_num)

theorem gtm_keep (v : ℚ) (hp : Poller.passesMidFilter (Samples.midMarket v) = true) :
    Poller.get_top_markets [Samples.midMarket v] 100 = [⟨"tk", "s", "q"⟩] := by
  have hq : ("q" : String).take 50 = "q" := by decide
  simp only [Samples.midMarket] at hp
  simp [Poller.get_top_markets, Poller.get_top_markets_go, hp, Samples.midMarket, hq]

theorem gtm_drop (v : ℚ) (hp : Poller.passesMidFilter (Samples.midMarket v) = false) :
    Poller.get_top_markets [Samples.midMarket v] 100 = [] := by
  simp only [Samples.midMarket] at hp
  simp [Poller.get_top_markets, Poller.get_top_markets_go, hp, Samples.midMarket]

/-- Claim C4, counterexample: a market with mid price exactly 0.10 is KEPT
by the target selection (`if mid_price < 0.10 or mid_price > 0.90:
continue` skips only strictly outside values), so the filter is not
"strictly between" 0.10 and 0.90. -/
theorem claimC4_counterexample :
    Poller.passesMidFilter (Samples.midMarket (1/10)) = true
    ∧ Poller.get_top_markets [Samples.midMarket (1/10)] 100
        = [⟨"tk", "s", "q"⟩]
    ∧ Poller.mid_price (Samples.midMarket (1/10)) = 1/10
    ∧ ¬ (1/10 < Poller.mid_price (Samples.midMarket (1/10))
          ∧ Poller.mid_price (Samples.midMarket (1/10)) < 9/10) := by
  have hmid : Poller.mid_price (Samples.midMarket (1/10)) = 1/10 :=
    mid_price_midMarket (1/10) (by norm_num)
  exact ⟨passes_1_10, gtm_keep _ passes_1_10, hmid, by rw [hmid]; norm_num⟩

/-- Claim C4, amended: target selection keeps a (price-parseable) market
exactly when its mid price lies INCLUSIVELY between 0.10 and 0.90:
mid 0.05 and 0.95 are excluded, 0.50 is included, and the fixed boundary
rule is inclusive at both ends — exactly 0.10 and exactly 0.90 are kept. -/
theorem claimC4_amended (m : Poller.Market) (hm : m.parseError = false) :
    (Poller.passesMidFilter m = true ↔
        1/10 ≤ Poller.mid_price m ∧ Poller.mid_price m ≤ 9/10)
    ∧ Poller.passesMidFilter (Samples.midMarket (1/20)) = false
    ∧ Poller.passesMidFilter (Samples.midMarket (19/20)) = false
    ∧ Poller.passesMidFilter (Samples.midMarket (1/2)) = true
    ∧ Poller.passesMidFilter (Samples.midMarket (1/10)) = true
    ∧ Poller.passesMidFilter (Samples.midMarket (9/10)) = true
    ∧ Poller.get_top_markets [Samples.midMarket (1/2)] 100 = [⟨"tk", "s", "q"⟩]
    ∧ Poller.get_top_markets [Samples.midMarket (1/20)] 100 = [] := by
  refine ⟨?_, passes_1_20, passes_19_20, passes_1_2, passes_1_10, passes_9_10,
    gtm_keep _ passes_1_2, gtm_drop _ passes_1_20⟩
  rw [Poller.passesMidFilter, hm]
  simp [not_or, not_lt]

/-- Claim C4, witness: the boundary rule evaluated at mid price 0.50. -/
theorem claimC4_witness :
    Poller.passesMidFilter (Samples.midMarket (1/2)) = true := by
  have h := claimC4_amended (Samples.midMarket (1/2)) rfl
  refine h.1.mpr ?_
  rw [mid_price_midMarket (1/2) (by norm_num)]
  norm_num

theorem query_attempts_succ (outcome : Nat → Extract.AttemptOutcome) (n attempt : Nat) :
    Extract.query_attempts outcome (n + 1) attempt
      = match outcome attempt with
        | .ok d => (some d, [])
        | .gqlErrors => (none, [])
        | .exn =>
          ((Extract.query_attempts outcome n (attempt + 1)).1,
            2 ^ attempt :: (Extract.query_attempts outcome n (attempt + 1)).2) := rfl

theorem query_attempts_all_exn (outcome : Nat → Extract.AttemptOutcome) (n : Nat) :
    ∀ attempt, (∀ k, attempt ≤ k → k < attempt + n → outcome k = .exn) →
      Extract.query_attempts outcome n attempt
        = (none, (List.range' attempt n).map (fun k => 2 ^ k)) := by
  induction n with
  | zero => intro attempt _; rfl
  | succ n ih =>
    intro attempt h
    rw [query_attempts_succ, h attempt (le_refl _) (by omega)]
    rw [ih (attempt + 1) (fun k hk1 hk2 => h k (by omega) (by omega))]
    rw [List.range'_succ, List.map_cons]

/-- Claim C5, counterexample: when all three attempts of a page request
fail, `query_subgraph` returns None after sleeping 1s, 2s and 4s,
`extract_trades_batch` turns that failure into an EMPTY page, and the run
terminates through exactly the same normal-completion path as an exhausted
remote — it does not abort. -/
theorem claimC5_counterexample :
    Extract.query_subgraph (fun _ => Extract.AttemptOutcome.exn) = (none, [1, 2, 4])
    ∧ Extract.extract_trades_batch none = []
    ∧ Extract.runLoop (fun _ => none) 10 [] none []
        = .completed [] [0]
    ∧ Extract.runLoop (fun _ => none) 10 [] none []
        = Extract.runLoop (Extract.healthyQuery []) 10 [] none [] := by
  refine ⟨?_, rfl, rfl, rfl⟩
  have h := query_attempts_all_exn (fun _ => Extract.AttemptOutcome.exn) 3 0
    (fun _ _ _ => rfl)
  rw [Extract.query_subgraph, h]
  decide

/-- Claim C5, amended: each page request makes up to 3 attempts total,
sleeping 1s after the first failure and 2s after the second (and a final
4s after the third, after which None is returned); exhausting the attempts
is NOT fatal — the failed request yields an empty page and the run
terminates through the normal-completion path, indistinguishable from an
exhausted remote — while rows committed by earlier pages are returned
unchanged in the final state, so a restart resumes from the stored cursor. -/
theorem claimC5_amended (outcome : Nat → Extract.AttemptOutcome)
    (h : ∀ k, k < 3 → outcome k = .exn) (fuel : Nat) (db : List Extract.TradeRow)
    (c : Option Nat) (sizes : List Nat) :
    Extract.query_subgraph outcome = (none, [1, 2, 4])
    ∧ Extract.extract_trades_batch none = []
    ∧ Extract.runLoop (fun _ => none) (fuel + 1) db c sizes
        = .completed db (sizes ++ [0])
    ∧ Extract.runLoop (fun _ => none) (fuel + 1) db c sizes
        = Extract.runLoop (Extract.healthyQuery []) (fuel + 1) db c sizes := by
    refine ⟨?_, rfl, rfl, rfl⟩
    have hq := query_attempts_all_exn outcome 3 0 (fun k _ hk => h k (by omega))
    rw [Extract.query_subgraph, hq]
    decide

/-- Claim C5, witness: the amended behaviour at a concrete all-failing
outcome sequence. -/
theorem claimC5_witness :
    Extract.query_subgraph (fun k => if k < 5 then Extract.AttemptOutcome.exn
        else Extract.AttemptOutcome.gqlErrors) = (none, [1, 2, 4])
    ∧ Extract.extract_trades_batch none = []
    ∧ Extract.runLoop (fun _ => none) 8 [Extract.stubRow 1] (some 1) [1]
        = .completed [Extract.stubRow 1] [1, 0]
    ∧ Extract.runLoop (fun _ => none) 8 [Extract.stubRow 1] (some 1) [1]
        = Extract.runLoop (Extract.healthyQuery []) 8 [Extract.stubRow 1] (some 1) [1] := by
  have h := claimC5_amended
    (fun k => if k < 5 then Extract.AttemptOutcome.exn else Extract.AttemptOutcome.gqlErrors)
    (fun k hk => if_pos (show k < 5 by omega))
    7 [Extract.stubRow 1] (some 1) [1]
  simpa using h

/-- Claim C6: `handle_message` dispatches an array of events independently
in array order; an array [book, last_trade_price, price_change] yields
exactly the three storage calls routed to the book-snapshot, trade and
price-change handlers in that order, and an event with an unrecognized
event_type produces no storage call and no error. -/
theorem claimC6_dispatch (items : List WS.Item) (e1 e2 e3 e : WS.RawEvent)
    (h1 : e1.event_type = "book") (h2 : e2.event_type = "last_trade_price")
    (h3 : e3.event_type = "price_change")
    (hu : e.event_type ≠ "book" ∧ e.event_type ≠ "last_trade_price"
          ∧ e.event_type ≠ "price_change") :
    WS.handle_message (.arr items) = (items.map WS.processEvent).flatten
    ∧ WS.handle_message (.arr [.obj e1, .obj e2, .obj e3])
        = [.storeBook e1, .storeTrade e2, .storePriceChange e3]
    ∧ WS.processEvent (.obj e) = [] := by
  refine ⟨rfl, ?_, ?_⟩
  · simp [WS.handle_message, WS.processEvent, h1, h2, h3]
  · simp [WS.processEvent, hu.1, hu.2.1, hu.2.2]

/-- Claim C6, witness: the dispatch evaluated on concrete events. -/
theorem claimC6_witness :
    WS.handle_message (.arr [.obj Samples.bookEv, .obj Samples.tradeEv, .obj Samples.pcEv])
      = [.storeBook Samples.bookEv, .storeTrade Samples.tradeEv,
          .storePriceChange Samples.pcEv]
    ∧ WS.processEvent (.obj Samples.unknownEv) = [] := by
  have h := claimC6_dispatch [] Samples.bookEv Samples.tradeEv Samples.pcEv
    Samples.unknownEv rfl rfl rfl ⟨by decide, by decide, by decide⟩
  exact ⟨h.2.1, h.2.2⟩

/-- Claim C7: each fetched page is inserted in one per-page transaction
with conflict-ignoring semantics — after the insert every page record's id
is present, no duplicate ids are created when the table's ids were unique,
re-inserting the same page is a no-op, the table is only appended to — and
the resume cursor is advanced to the id of the page's last record. -/
theorem claimC7_page_insert (db : List Extract.TradeRow)
    (page : List Extract.FillRecord) (c : Option Nat) (h : page ≠ []) :
    (∀ t ∈ page, t.id ∈ Extract.ids (Extract.insert_trades db page))
    ∧ ((Extract.ids db).Nodup → (Extract.ids (Extract.insert_trades db page)).Nodup)
    ∧ Extract.insert_trades (Extract.insert_trades db page) page
        = Extract.insert_trades db page
    ∧ (∃ ext, Extract.insert_trades db page = db ++ ext)
    ∧ Extract.advance_cursor c page = some ((page.getLast h).id) := by
  refine ⟨fun t ht => Extract.mem_ids_insert_trades db page ht,
    Extract.insert_trades_nodup db page,
    Extract.insert_trades_noop _ _ (fun t ht => Extract.mem_ids_insert_trades db page ht),
    Extract.insert_trades_append_only db page, ?_⟩
  rw [Extract.advance_cursor, List.getLast?_eq_getLast page h]

/-- Claim C7, witness: the page-insert contract evaluated on a concrete
two-record page against an empty table. -/
theorem claimC7_witness :
    (Extract.stubRecord 2).id ∈ Extract.ids
        (Extract.insert_trades [] [Extract.stubRecord 1, Extract.stubRecord 2])
    ∧ Extract.advance_cursor none [Extract.stubRecord 1, Extract.stubRecord 2]
        = some 2 := by
  have h := claimC7_page_insert [] [Extract.stubRecord 1, Extract.stubRecord 2]
    none (by simp)
  exact ⟨h.1 _ (by simp), (h.2.2.2.2).trans rfl⟩

/-- Claim C8: each fetch carries its own independent 10s timeout, and
batch processing stores one snapshot per SUCCESSFUL target, unaffected by
the other targets of the same batch — in particular a target with a
successful fetch has its snapshot stored no matter which or how many other
targets in the batch timed out or failed. -/
theorem claimC8_batch_isolation (st : Poller.PollerState) (now : Int)
    (pre post : List (Poller.Target × Option Poller.Book))
    (t : Poller.Target) (b : Poller.Book) :
    Poller.fetch_timeout = 10
    ∧ (Poller.processBatch st now (pre ++ (t, some b) :: post)).orderbook_snapshots
        = st.orderbook_snapshots
          ++ pre.filterMap (fun tr => tr.2.map (Poller.mkSnapshotRow tr.1.token now))
          ++ Poller.mkSnapshotRow t.token now b
            :: post.filterMap (fun tr => tr.2.map (Poller.mkSnapshotRow tr.1.token now))
    ∧ Poller.mkSnapshotRow t.token now b
        ∈ (Poller.processBatch st now (pre ++ (t, some b) :: post)).orderbook_snapshots := by
  have hc := processBatch_snapshots st now (pre ++ (t, some b) :: post)
  rw [List.filterMap_append, List.filterMap_cons] at hc
  simp only [Option.map_some'] at hc
  refine ⟨rfl, ?_, ?_⟩
  · rw [hc, List.append_assoc]
  · rw [hc]
    simp

/-- Claim C9: in both collectors' snapshot rows, best_bid (resp. best_ask)
is None exactly when the bid (resp. ask) side is empty, and the stored
spread is best_ask − best_bid only when both best prices are truthy
(present and non-zero) — in particular a payload with both sides non-empty
but a best price parsing to 0 stores spread = None. -/
theorem claimC9_spread (data : WS.RawEvent) (tok : String) (now : Int)
    (book : Poller.Book) :
    ((WS.mkSnapshotRow data).best_bid = none ↔ data.bids = [])
    ∧ ((WS.mkSnapshotRow data).best_ask = none ↔ data.asks = [])
    ∧ (data.bids ≠ [] → data.asks ≠ [] →
        (bestPrice data.bids = some 0 ∨ bestPrice data.asks = some 0) →
        (WS.mkSnapshotRow data).spread = none)
    ∧ (∀ s : ℚ, (WS.mkSnapshotRow data).spread = some s ↔
        ∃ b a, bestPrice data.bids = some b ∧ bestPrice data.asks = some a
          ∧ b ≠ 0 ∧ a ≠ 0 ∧ s = a - b)
    ∧ ((Poller.mkSnapshotRow tok now book).best_bid = none ↔ book.bids = [])
    ∧ ((Poller.mkSnapshotRow tok now book).best_ask = none ↔ book.asks = [])
    ∧ (book.bids ≠ [] → book.asks ≠ [] →
        (bestPrice book.bids = some 0 ∨ bestPrice book.asks = some 0) →
        (Poller.mkSnapshotRow tok now book).spread = none) := by
  refine ⟨bestPrice_eq_none_iff data.bids, bestPrice_eq_none_iff data.asks,
    fun _ _ hz => spreadOf_none_of_zero _ _ hz,
    fun s => spreadOf_eq_some_iff _ _ s,
    bestPrice_eq_none_iff book.bids, bestPrice_eq_none_iff book.asks,
    fun _ _ hz => spreadOf_none_of_zero _ _ hz⟩

/-- Claim C9, witness: a book event with non-empty sides whose best bid
parses to 0 stores spread = None, in both collectors. -/
theorem claimC9_witness :
    (WS.mkSnapshotRow Samples.zeroBidBookEv).spread = none
    ∧ (Poller.mkSnapshotRow "tokP" 1800 ⟨[⟨0, 5⟩], [⟨1/2, 5⟩]⟩).spread = none := by
  have h := claimC9_spread Samples.zeroBidBookEv "tokP" 1800 ⟨[⟨0, 5⟩], [⟨1/2, 5⟩]⟩
  exact ⟨h.2.2.1 (by simp [Samples.zeroBidBookEv]) (by simp [Samples.zeroBidBookEv])
      (Or.inl rfl),
    h.2.2.2.2.2.2 (by simp) (by simp) (Or.inl rfl)⟩

/-- Claim C10: `store_price_change` inserts exactly one row per delta of
the event's list, each row carrying the event-level timestamp and the
delta's own asset id, price, size and side; an event with an empty delta
list performs no storage call, leaves the counter unchanged and raises no
error (the state is returned unchanged). -/
theorem claimC10_price_change (st : WS.CollectorState) (data : WS.RawEvent)
    (ts : Int) (c : WS.PriceDelta) :
    ((WS.store_price_change st data).price_changes
        = st.price_changes ++ data.price_changes.map (WS.mkPCRow data.timestamp))
    ∧ ((WS.store_price_change st data).stats_price_changes
        = st.stats_price_changes + data.price_changes.length)
    ∧ WS.mkPCRow ts c = ⟨c.asset_id, ts, c.price, c.size, c.side, c.best_bid, c.best_ask⟩
    ∧ (data.price_changes = [] → WS.store_price_change st data = st) := by
  refine ⟨?_, ?_, rfl, fun h => by simp [WS.store_price_change, h]⟩
  · cases hd : data.price_changes with
    | nil => simp [WS.store_price_change, hd]
    | cons a l => simp [WS.store_price_change, hd]
  · cases hd : data.price_changes with
    | nil => simp [WS.store_price_change, hd]
    | cons a l => simp [WS.store_price_change, hd]

/-- Claim C10, witness: a two-delta event stores two rows and bumps the
counter by 2; an empty-delta event leaves the state unchanged. -/
theorem claimC10_witness :
    (WS.store_price_change WS.initState Samples.pcEv).price_changes
      = Samples.pcEv.price_changes.map (WS.mkPCRow 1703)
    ∧ (WS.store_price_change WS.initState Samples.pcEv).stats_price_changes = 2
    ∧ WS.store_price_change WS.initState Samples.emptyPcEv = WS.initState := by
  have h1 := claimC10_price_change WS.initState Samples.pcEv 1703
    ⟨"x", 0, 0, "", none, none⟩
  have h2 := claimC10_price_change WS.initState Samples.emptyPcEv 0
    ⟨"x", 0, 0, "", none, none⟩
  refine ⟨?_, ?_, h2.2.2.2 rfl⟩
  · rw [h1.1]
    rfl
  · rw [h1.2.1]
    rfl
